import Mathlib

/-!
Verification of the torcc-rs control-protocol client.

The development shallowly embeds `src/parsers.rs` and
`src/controller/mod.rs`.  Rust `&str` values are modelled as `List Char`;
the nom `IResult` type is modelled by `PResult`, whose extra `panic`
constructor records a Rust panic (an `unwrap()` on an `Err`), which no nom
combinator catches.
-/

namespace Torcc

/-- Rust string slices are modelled as lists of characters. -/
abbrev Str := List Char

/-- Outcome of a nom-style parser on a complete input: success with the
unconsumed remainder and the parsed value, a recoverable parse error
(`nom::Err::Error`), or a Rust panic (`unwrap()` on an `Err` inside the
parser, which is not a parse error and is not caught by `opt`). -/
inductive PResult (α : Type) where
  | ok (rest : Str) (val : α)
  | err
  | panic
  deriving Repr, DecidableEq

/-- A parser over string slices, in the style of `nom`. -/
abbrev Parser (α : Type) := Str → PResult α

/-- Sequencing of parsers: on success run the continuation on the
remainder; errors and panics propagate. -/
def pbind {α β : Type} (p : Parser α) (f : α → Parser β) : Parser β :=
  fun input =>
    match p input with
    | .ok i v => f v i
    | .err => .err
    | .panic => .panic

/-- The parser that consumes nothing and returns `v`. -/
def pok {α : Type} (v : α) : Parser α := fun i => .ok i v

/-- `nom::bytes::complete::tag`: matches the literal `t` at the head of
the input and returns it, failing otherwise. -/
def tag (t : Str) : Parser Str := fun input =>
  if t.isPrefixOf input then .ok (input.drop t.length) t else .err

/-- `nom::bytes::complete::is_not`: takes the longest nonempty run of
characters none of which occurs in `forbidden`; an empty run is an error. -/
def is_not (forbidden : Str) : Parser Str := fun input =>
  if (input.takeWhile (fun c => !forbidden.contains c)).length = 0 then .err
  else
    .ok (input.drop (input.takeWhile (fun c => !forbidden.contains c)).length)
      (input.takeWhile (fun c => !forbidden.contains c))

/-- `nom::character::complete::line_ending`: matches `"\n"` or `"\r\n"`. -/
def line_ending : Parser Str := fun input =>
  match input with
  | '\n' :: rest => .ok rest ['\n']
  | '\r' :: '\n' :: rest => .ok rest ['\r', '\n']
  | _ => .err

/-- `nom::combinator::opt`: turns a recoverable error of `p` into `none`
without consuming input.  A panic inside `p` still propagates. -/
def opt {α : Type} (p : Parser α) : Parser (Option α) := fun input =>
  match p input with
  | .ok rest v => .ok rest (some v)
  | .err => .ok input none
  | .panic => .panic

/-- `nom::sequence::delimited a b c`: runs `a`, `b`, `c` in order and
returns `b`'s value. -/
def delimited {α β γ : Type} (a : Parser α) (b : Parser β) (c : Parser γ) : Parser β :=
  pbind a fun _ => pbind b fun v => pbind c fun _ => pok v

/-- `nom::sequence::terminated a b`: runs `a` then `b` and returns `a`'s
value. -/
def terminated {α β : Type} (a : Parser α) (b : Parser β) : Parser α :=
  pbind a fun v => pbind b fun _ => pok v

/-- Fuelled loop of `nom::multi::many0`; nom aborts with an error when an
iteration consumes no input (its infinite-loop guard). -/
def many0Aux {α : Type} (p : Parser α) : Nat → Str → List α → PResult (List α)
  | 0, _, _ => .err
  | fuel + 1, input, acc =>
    match p input with
    | .err => .ok input acc.reverse
    | .panic => .panic
    | .ok i v =>
      if i.length = input.length then .err
      else many0Aux p fuel i (v :: acc)

/-- `nom::multi::many0`: repeats `p` until it fails, collecting values.
The fuel bounds the iteration count; each iteration strictly consumes, so
`input.length + 1` is never exhausted. -/
def many0 {α : Type} (p : Parser α) : Parser (List α) := fun input =>
  many0Aux p (input.length + 1) input []

/-- Fuelled loop of `nom::multi::separated_list0` after its first
element: alternately parse the separator and the element; a separator
that consumes nothing aborts with an error (nom's infinite-loop guard). -/
def sepListAux {α β : Type} (sep : Parser α) (p : Parser β) :
    Nat → Str → List β → PResult (List β)
  | 0, _, _ => .err
  | fuel + 1, input, acc =>
    match sep input with
    | .err => .ok input acc.reverse
    | .panic => .panic
    | .ok i1 _ =>
      if i1.length = input.length then .err
      else
        match p i1 with
        | .err => .ok input acc.reverse
        | .panic => .panic
        | .ok i2 v => sepListAux sep p fuel i2 (v :: acc)

/-- `nom::multi::separated_list0 sep p`: zero or more `p` separated by
`sep`; failure of the first `p` yields the empty list. -/
def separated_list0 {α β : Type} (sep : Parser α) (p : Parser β) : Parser (List β) :=
  fun input =>
    match p input with
    | .err => .ok input []
    | .panic => .panic
    | .ok i1 v => sepListAux sep p (i1.length + 1) i1 [v]

/-! ## Domain value types (`src/controller/mod.rs`, `src/controller/error.rs`) -/

/-- The error enumeration of `src/controller/error.rs` (the `Io` payload
is irrelevant to the parsing layer and carried as a bare constructor). -/
inductive Error where
  | unknownKeyType
  | unknownAuthMethod
  | authMethodDisabled
  | io
  | internalError
  deriving Repr, DecidableEq

/-- `AuthMethod` (mod.rs lines 25-30). -/
inductive AuthMethod where
  | cookie
  | safeCookie
  | hashedPassword
  deriving Repr, DecidableEq

/-- `AuthMethod::from_str` (mod.rs lines 32-43). -/
def AuthMethod.from_str (s : Str) : Except Error AuthMethod :=
  if s = "COOKIE".data then .ok .cookie
  else if s = "SAFECOOKIE".data then .ok .safeCookie
  else if s = "HASHEDPASSWORD".data then .ok .hashedPassword
  else .error .unknownAuthMethod

/-- `KeyType` (mod.rs lines 81-86). -/
inductive KeyType where
  | best
  | rsa1024
  | ed25519V3
  deriving Repr, DecidableEq

/-- `KeyType::from_str` (mod.rs lines 104-114). -/
def KeyType.from_str (s : Str) : Except Error KeyType :=
  if s = "ED25519-V3".data then .ok .ed25519V3
  else if s = "RSA1024".data then .ok .rsa1024
  else .error .unknownKeyType

/-- `KeyType::to_string` (mod.rs lines 94-102). -/
def KeyType.to_string : KeyType → Str
  | .ed25519V3 => "ED25519-V3".data
  | .rsa1024 => "RSA1024".data
  | .best => "BEST".data

/-- `ServiceID` (mod.rs line 117): an opaque identifier string. -/
structure ServiceID where
  id : Str
  deriving Repr, DecidableEq

/-- `ProtocolInfo` as actually constructed by the parser
(parsers.rs lines 60-66) and by its own unit test: only the auth methods
and the version.  NOTE: the declaration at mod.rs lines 18-23 additionally
declares a `cookiefile: String` field, which `connect_with_authcookie`
(mod.rs line 205) reads, but which the parser never sets — the two files
do not agree. -/
structure ProtocolInfo where
  auth_methods : List AuthMethod
  version : Str
  deriving Repr, DecidableEq

/-- `HiddenService` (mod.rs lines 131-135). -/
structure HiddenService where
  service_id : ServiceID
  key_type : KeyType
  private_key : Str
  deriving Repr, DecidableEq

/-! ## Reply parsers (`src/parsers.rs`) -/

/-- Models Rust `char::is_numeric` on the ASCII fragment, where it holds
exactly for the digits `0`-`9`.  All theorems about `is_final_line` are
stated for ASCII lines, on which this model is exact. -/
def rustIsNumeric (c : Char) : Bool := c.isDigit

/-- Rust `char::is_whitespace`: the Unicode White_Space property
(U+0009-U+000D, U+0020, U+0085, U+00A0, U+1680, U+2000-U+200A, U+2028,
U+2029, U+202F, U+205F, U+3000). -/
def rustIsWhitespace (c : Char) : Bool :=
  let n := c.toNat
  (0x09 ≤ n && n ≤ 0x0D) || n = 0x20 || n = 0x85 || n = 0xA0 || n = 0x1680 ||
  (0x2000 ≤ n && n ≤ 0x200A) || n = 0x2028 || n = 0x2029 || n = 0x202F ||
  n = 0x205F || n = 0x3000

/-- Rust `str::len`: the length in UTF-8 bytes (not characters). -/
def rustStrLen (s : Str) : Nat := (s.map Char.utf8Size).sum

/-- `is_final_line` (parsers.rs lines 15-30): the byte length must be at
least 5; the first three characters must be numeric; reaching the fourth
character, the function returns whether it is whitespace; fewer than four
characters fall off the loop and return false. -/
def is_final_line (line : Str) : Bool :=
  if rustStrLen line < 5 then false
  else
    match line with
    | c0 :: c1 :: c2 :: c3 :: _ =>
      if !rustIsNumeric c0 then false
      else if !rustIsNumeric c1 then false
      else if !rustIsNumeric c2 then false
      else rustIsWhitespace c3
    | _ => false

/-- `comma_separated_values` (parsers.rs lines 32-36): take the run up to
a space/CR/LF, split that run on commas (discarding the split's own
remainder), and return the values with the outer remainder. -/
def comma_separated_values : Parser (List Str) := fun input =>
  match is_not " \r\n".data input with
  | .err => .err
  | .panic => .panic
  | .ok remainder interesting =>
    match separated_list0 (tag ",".data) (is_not ",".data) interesting with
    | .err => .err
    | .panic => .panic
    | .ok _ values => .ok remainder values

/-- `is_ok` (parsers.rs lines 38-41): just `tag("250 OK")`. -/
def is_ok : Parser Unit :=
  pbind (tag "250 OK".data) fun _ => pok ()

/-- The `methods.iter().map(|m| AuthMethod::from_str(m).unwrap()).collect()`
of parsers.rs lines 61-64: `none` records the panic of `unwrap` on the
first unknown token. -/
def unwrapAuthMethods : List Str → Option (List AuthMethod)
  | [] => some []
  | m :: ms =>
    match AuthMethod.from_str m with
    | .error _ => none
    | .ok a => (unwrapAuthMethods ms).map (fun rest => a :: rest)

/-- `protocol_info` (parsers.rs lines 43-68).  The parsed `COOKIEFILE`
value is bound and then dropped (`_cookiefile`, with a TODO comment in the
source); the constructed `ProtocolInfo` holds only the auth methods and
the version. -/
def protocol_info : Parser ProtocolInfo :=
  pbind (tag "250-PROTOCOLINFO 1".data) fun _ =>
  pbind line_ending fun _ =>
  pbind (delimited (tag "250-AUTH METHODS=".data) comma_separated_values (tag " ".data))
    fun methods =>
  pbind (delimited (tag "COOKIEFILE=\"".data) (is_not "\"".data) (tag "\"".data))
    fun _cookiefile =>
  pbind line_ending fun _ =>
  pbind (delimited (tag "250-VERSION Tor=\"".data) (is_not "\"".data) (tag "\"".data))
    fun version =>
  pbind (opt (is_not "\r\n".data)) fun _ =>
  pbind line_ending fun _ =>
  pbind (tag "250 OK".data) fun _ =>
  fun i =>
    match unwrapAuthMethods methods with
    | none => .panic
    | some ams => .ok i ⟨ams, version⟩

/-- The same parsing chain as `protocol_info`, returning the intermediate
`_cookiefile` binding of parsers.rs line 49 instead of the final value:
it witnesses that the cookie path is present in the input and parsed,
even though the result drops it. -/
def protocol_info_cookie : Parser Str :=
  pbind (tag "250-PROTOCOLINFO 1".data) fun _ =>
  pbind line_ending fun _ =>
  pbind (delimited (tag "250-AUTH METHODS=".data) comma_separated_values (tag " ".data))
    fun _methods =>
  pbind (delimited (tag "COOKIEFILE=\"".data) (is_not "\"".data) (tag "\"".data))
    fun cookiefile =>
  pbind line_ending fun _ =>
  pbind (delimited (tag "250-VERSION Tor=\"".data) (is_not "\"".data) (tag "\"".data))
    fun _version =>
  pbind (opt (is_not "\r\n".data)) fun _ =>
  pbind line_ending fun _ =>
  pbind (tag "250 OK".data) fun _ =>
  pok cookiefile

/-- Insertion into the model of `std::collections::HashMap`: replace the
value of an existing key, otherwise add the binding. -/
def hmInsert (m : List (Str × Str)) (k v : Str) : List (Str × Str) :=
  if m.any (fun p => p.1 = k) then
    m.map (fun p => if p.1 = k then (k, v) else p)
  else m ++ [(k, v)]

/-- `HashMap::get` on the model. -/
def hmGet (m : List (Str × Str)) (k : Str) : Option Str :=
  (m.find? (fun p => p.1 == k)).map (fun p => p.2)

/-- One `250-<key>=<value>` line of the GETINFO reply
(parsers.rs lines 80-84). -/
def get_info_pair : Parser (Str × Str) :=
  pbind (delimited (tag "250-".data) (is_not "=".data) (tag "=".data)) fun key =>
  pbind (terminated (is_not "\r\n".data) line_ending) fun value =>
  pok (key, value)

/-- `get_info` (parsers.rs lines 79-92): `many0` over key/value lines,
folded into the map (insertion order, last write wins).  Note the source
never requires a final `250 OK`: the remainder is simply returned. -/
def get_info : Parser (List (Str × Str)) :=
  pbind (many0 get_info_pair) fun pairs =>
  pok (pairs.foldl (fun m kv => hmInsert m kv.1 kv.2) [])

/-- `add_onion` (parsers.rs lines 104-130).  The `KeyType::from_str(..)
.unwrap()` at line 114 panics on an unknown key-type token; the panic is
inside the `opt` combinator but `opt` only catches parse errors. -/
def add_onion : Parser (ServiceID × Option (KeyType × Str)) :=
  pbind (tag "250-ServiceID=".data) fun _ =>
  pbind (is_not "\r\n".data) fun service_id =>
  pbind line_ending fun _ =>
  pbind (opt (
    pbind (delimited (tag "250-PrivateKey=".data) (is_not ":".data) (tag ":".data))
      fun key_type =>
    pbind (is_not "\r\n".data) fun key_blob =>
    pbind line_ending fun _ =>
    fun i =>
      match KeyType.from_str key_type with
      | .error _ => .panic
      | .ok kt => .ok i (kt, key_blob))) fun key =>
  pbind (opt (
    pbind (delimited (tag "250-ClientAuth=".data) (is_not ":".data) (tag ":".data))
      fun client_name =>
    pbind (is_not "\r\n".data) fun client_blob =>
    pbind line_ending fun _ =>
    pok (client_name, client_blob))) fun _client =>
  pbind (tag "250 OK".data) fun _ =>
  pok (⟨service_id⟩, key)

/-! ## Session layer (`src/controller/mod.rs`), with the transport
abstracted to the reply buffer the framer would deliver -/

/-- Rust `String::replace` with the one-character pattern `"` and the
replacement `\"` (mod.rs line 173). -/
def replaceQuote : Str → Str
  | [] => []
  | c :: rest =>
    if c = '\"' then '\\' :: '\"' :: replaceQuote rest
    else c :: replaceQuote rest

/-- The wire text built by `TorController::authenticate`
(mod.rs line 173): `AUTHENTICATE "<password with quotes escaped>"`. -/
def authentication_string (password : Str) : Str :=
  "AUTHENTICATE \"".data ++ replaceQuote password ++ "\"".data

/-- The reply-dispatch step of `TorController::send` (mod.rs lines
166-169): a successful parse returns the value with the remainder
discarded, a parse error becomes `Error::InternalError`.  `none` records
a panic raised inside the reply parser, which `send` does not catch. -/
def send {α : Type} (replyParser : Parser α) (buffer : Str) : Option (Except Error α) :=
  match replyParser buffer with
  | .ok _ v => some (.ok v)
  | .err => some (.error .internalError)
  | .panic => none

/-- `TorController::connect_with_password` after the PROTOCOLINFO
exchange (mod.rs lines 219-237), with the transport abstracted:
`pinfo` is the negotiated `ProtocolInfo`, `authReply` the buffer the
server would return to AUTHENTICATE.  The first component is the outcome
(`none` for a panic), the second the list of wire messages written after
the negotiation. -/
def connect_with_password (pinfo : ProtocolInfo) (password : Str) (authReply : Str) :
    Option (Except Error Unit) × List Str :=
  if !(pinfo.auth_methods.contains .hashedPassword) then
    (some (.error .authMethodDisabled), [])
  else
    (send is_ok authReply, [authentication_string password])

/-- The reply-handling of `TorController::add_onion` (mod.rs lines
239-250) as a function of the reply buffer: the parsed optional key
material is unconditionally `unwrap()`ed (mod.rs line 242); `none`
records the panic when it is absent. -/
def TorController.add_onion (reply : Str) : Option (Except Error HiddenService) :=
  match send Torcc.add_onion reply with
  | none => none
  | some (.error e) => some (.error e)
  | some (.ok (service_id, key)) =>
    match key with
    | none => none
    | some (kt, pk) => some (.ok ⟨service_id, kt, pk⟩)

/-- The reply-handling of `TorController::add_onion_with_key` (mod.rs
lines 256-272) as a function of the reply buffer: identical to
`TorController.add_onion` — the same parser and the same unconditional
`unwrap()` of the optional key (mod.rs line 264). -/
def TorController.add_onion_with_key (reply : Str) : Option (Except Error HiddenService) :=
  match send Torcc.add_onion reply with
  | none => none
  | some (.error e) => some (.error e)
  | some (.ok (service_id, key)) =>
    match key with
    | none => none
    | some (kt, pk) => some (.ok ⟨service_id, kt, pk⟩)

/-! ## General parsing lemmas -/

theorem tag_append (t rest : Str) : tag t (t ++ rest) = .ok rest t := by
  simp [tag, List.isPrefixOf_iff_prefix, List.prefix_append, List.drop_left]

theorem takeWhile_append_of (p : Char → Bool) (s rest : Str)
    (hs : ∀ c ∈ s, p c = true)
    (hrest : ∀ c, rest.head? = some c → p c = false) :
    (s ++ rest).takeWhile p = s := by
  induction s with
  | nil =>
    cases rest with
    | nil => rfl
    | cons c r => simp [List.takeWhile_cons, hrest c rfl]
  | cons a s ih =>
    have ha : p a = true := hs a (List.mem_cons_self a s)
    have ht : (s ++ rest).takeWhile p = s :=
      ih (fun c hc => hs c (List.mem_cons_of_mem a hc))
    simp [List.takeWhile_cons, ha, ht]

theorem is_not_append (forbidden s rest : Str)
    (hne : s ≠ [])
    (hs : ∀ c ∈ s, c ∉ forbidden)
    (hrest : ∀ c, rest.head? = some c → c ∈ forbidden) :
    is_not forbidden (s ++ rest) = .ok rest s := by
  have ht : (s ++ rest).takeWhile (fun c => !forbidden.contains c) = s :=
    takeWhile_append_of _ s rest (fun c hc => by simp [hs c hc])
      (fun c hc => by simp [hrest c hc])
  rw [is_not, ht, if_neg (by simpa [List.length_eq_zero] using hne), List.drop_left]

theorem is_not_err (forbidden input : Str)
    (h : ∀ c, input.head? = some c → c ∈ forbidden) :
    is_not forbidden input = .err := by
  cases input with
  | nil => rfl
  | cons c r => simp [is_not, List.takeWhile_cons, h c rfl]

/-! ## C1-C6: concrete evidence -/

/-- C1 (code_bug evidence): two PROTOCOLINFO reply buffers that differ
only in the COOKIEFILE path parse to the same `ProtocolInfo` value —
the parser binds the path (as `protocol_info_cookie` shows) and then
drops it, so the result does not carry the cookie file path. -/
theorem protocol_info_cookie_path_dropped :
    protocol_info "250-PROTOCOLINFO 1\n250-AUTH METHODS=COOKIE COOKIEFILE=\"/var/run/tor/control.authcookie\"\n250-VERSION Tor=\"0.1.2.3\"\n250 OK".data =
      protocol_info "250-PROTOCOLINFO 1\n250-AUTH METHODS=COOKIE COOKIEFILE=\"/other/path\"\n250-VERSION Tor=\"0.1.2.3\"\n250 OK".data ∧
    protocol_info_cookie "250-PROTOCOLINFO 1\n250-AUTH METHODS=COOKIE COOKIEFILE=\"/var/run/tor/control.authcookie\"\n250-VERSION Tor=\"0.1.2.3\"\n250 OK".data =
      .ok [] "/var/run/tor/control.authcookie".data ∧
    protocol_info_cookie "250-PROTOCOLINFO 1\n250-AUTH METHODS=COOKIE COOKIEFILE=\"/other/path\"\n250-VERSION Tor=\"0.1.2.3\"\n250 OK".data =
      .ok [] "/other/path".data := by
  refine ⟨?_, ?_, ?_⟩ <;> decide

/-- C2 (counterexample): on a PROTOCOLINFO reply whose AUTH METHODS list
holds the unknown token `FOO`, `protocol_info` panics (the `unwrap` at
parsers.rs line 63) — it does not return a parse error. -/
theorem protocol_info_unknown_method_panic_cex :
    protocol_info "250-PROTOCOLINFO 1\n250-AUTH METHODS=FOO COOKIEFILE=\"/c\"\n250-VERSION Tor=\"0.1.2.3\"\n250 OK".data = .panic ∧
    (PResult.panic : PResult ProtocolInfo) ≠ .err := by
  exact ⟨by decide, by decide⟩

/-- C3 (counterexample): on an ADD_ONION reply whose 250-PrivateKey line
carries the unknown key-type token `FOO`, `add_onion` panics (the
`unwrap` at parsers.rs line 114, not caught by `opt`) — it does not
return a grammar-mismatch error. -/
theorem add_onion_unknown_keytype_panic_cex :
    add_onion "250-ServiceID=abc\n250-PrivateKey=FOO:blob\n250 OK".data = .panic ∧
    (PResult.panic : PResult (ServiceID × Option (KeyType × Str))) ≠ .err := by
  exact ⟨by decide, by decide⟩

/-- C4 (counterexample): the line `"250\tX"` has a tab — neither a space
nor a hyphen — as its fourth character, yet `is_final_line` returns true,
because the source tests `char::is_whitespace`, not a space. -/
theorem is_final_line_tab_counterexample :
    is_final_line "250\tX".data = true ∧ "250\tX".data.getD 3 ' ' = '\t' ∧
    ('\t' : Char) ≠ ' ' ∧ ('\t' : Char) ≠ '-' := by
  exact ⟨by decide, by decide, by decide, by decide⟩

/-- C5 (counterexample): a GETINFO buffer with no final `250 OK` line
parses successfully (the source never requires the final line), and even
the empty buffer is accepted. -/
theorem get_info_missing_final_ok_counterexample :
    get_info "250-version=0.1.2.3\n".data =
      .ok [] [("version".data, "0.1.2.3".data)] ∧
    get_info "".data = .ok [] [] := by
  exact ⟨by decide, by decide⟩

/-- C6 (counterexample): a buffer that merely begins with `250 OK` and
continues with further text is accepted by `is_ok` (the text is left as
the unconsumed remainder), and `send` discards that remainder and reports
success — not a grammar-mismatch error. -/
theorem is_ok_trailing_counterexample :
    is_ok "250 OKgarbage".data = .ok "garbage".data () ∧
    send is_ok "250 OKgarbage".data = some (.ok ()) := by
  exact ⟨by decide, rfl⟩

/-! ## Step lemmas for running the parsers on structured buffers -/

theorem head?_cons_inj {a c : Char} {X : Str} (hc : (a :: X).head? = some c) : c = a := by
  simp only [List.head?_cons, Option.some.injEq] at hc
  exact hc.symm

theorem line_ending_lf (rest : Str) : line_ending ("\n".data ++ rest) = .ok rest ['\n'] := rfl

/-- C7: on the repository's own ADD_ONION test vector, `add_onion`
returns service id `rdwu5tfgmibbgvff` with the key pair
(RSA1024, `MIIC`); and on every well-formed reply lacking the
250-PrivateKey line the parsed result carries no key material. -/
theorem add_onion_reply_correct (sid : Str) (hne : sid ≠ [])
    (hch : ∀ c ∈ sid, c ≠ '\r' ∧ c ≠ '\n') :
    add_onion ("250-ServiceID=".data ++ sid ++ "\n".data ++ "250 OK".data) =
      .ok [] (⟨sid⟩, none) ∧
    add_onion "250-ServiceID=rdwu5tfgmibbgvff\n250-PrivateKey=RSA1024:MIIC\n250 OK".data =
      .ok [] (⟨"rdwu5tfgmibbgvff".data⟩, some (.rsa1024, "MIIC".data)) := by
  constructor
  · have h1 := tag_append "250-ServiceID=".data (sid ++ ("\n".data ++ "250 OK".data))
    have h2 : is_not "\r\n".data (sid ++ ("\n".data ++ "250 OK".data)) =
        .ok ("\n".data ++ "250 OK".data) sid := by
      refine is_not_append _ _ _ hne ?_ ?_
      · intro c hc hmem
        have hmem2 : c ∈ ['\r', '\n'] := hmem
        have h := hch c hc
        simp only [List.mem_cons, List.not_mem_nil, or_false] at hmem2
        rcases hmem2 with h1 | h2
        · exact h.1 h1
        · exact h.2 h2
      · intro c hc
        have : c = '\n' := head?_cons_inj hc
        subst this
        decide
    have h3 := line_ending_lf "250 OK".data
    have hpk : tag "250-PrivateKey=".data "250 OK".data = .err := by decide
    have hca : tag "250-ClientAuth=".data "250 OK".data = .err := by decide
    have hok : tag "250 OK".data "250 OK".data = .ok [] "250 OK".data := by decide
    simp only [] at h1 h2 h3 hpk hca hok
    simp only [add_onion, delimited, pbind, opt, pok, List.append_assoc, h1, h2, h3, hpk,
      hca, hok]
  · decide

/-- C3 (amended): an ADD_ONION reply whose 250-PrivateKey line carries a
key-type token outside the closed set makes `add_onion` panic (the
`unwrap` of `KeyType::from_str`); the token is never coerced to `Best`,
but the function does not return an error — it diverges. -/
theorem add_onion_unknown_keytype_panics (sid kt blob : Str)
    (hsid : sid ≠ []) (hsidch : ∀ c ∈ sid, c ≠ '\r' ∧ c ≠ '\n')
    (hkt : kt ≠ []) (hktch : ∀ c ∈ kt, c ≠ ':')
    (hblob : blob ≠ []) (hblobch : ∀ c ∈ blob, c ≠ '\r' ∧ c ≠ '\n')
    (herr : KeyType.from_str kt = .error Error.unknownKeyType) :
    add_onion ("250-ServiceID=".data ++ sid ++ "\n".data ++ "250-PrivateKey=".data ++
      kt ++ ":".data ++ blob ++ "\n".data ++ "250 OK".data) = .panic := by
  have h1 := tag_append "250-ServiceID=".data (sid ++ ("\n".data ++ ("250-PrivateKey=".data ++
    (kt ++ (":".data ++ (blob ++ ("\n".data ++ "250 OK".data)))))))
  have h2 : is_not "\r\n".data (sid ++ ("\n".data ++ ("250-PrivateKey=".data ++
      (kt ++ (":".data ++ (blob ++ ("\n".data ++ "250 OK".data))))))) =
      .ok ("\n".data ++ ("250-PrivateKey=".data ++
        (kt ++ (":".data ++ (blob ++ ("\n".data ++ "250 OK".data)))))) sid := by
    refine is_not_append _ _ _ hsid ?_ ?_
    · intro c hc hmem
      have hmem2 : c ∈ ['\r', '\n'] := hmem
      have h := hsidch c hc
      simp only [List.mem_cons, List.not_mem_nil, or_false] at hmem2
      rcases hmem2 with ha | hb
      · exact h.1 ha
      · exact h.2 hb
    · intro c hc
      have : c = '\n' := head?_cons_inj hc
      subst this
      decide
  have h3 := line_ending_lf ("250-PrivateKey=".data ++
    (kt ++ (":".data ++ (blob ++ ("\n".data ++ "250 OK".data)))))
  have h4 := tag_append "250-PrivateKey=".data
    (kt ++ (":".data ++ (blob ++ ("\n".data ++ "250 OK".data))))
  have h5 : is_not ":".data (kt ++ (":".data ++ (blob ++ ("\n".data ++ "250 OK".data)))) =
      .ok (":".data ++ (blob ++ ("\n".data ++ "250 OK".data))) kt := by
    refine is_not_append _ _ _ hkt ?_ ?_
    · intro c hc hmem
      have hmem2 : c ∈ [':'] := hmem
      have h := hktch c hc
      simp only [List.mem_cons, List.not_mem_nil, or_false] at hmem2
      exact h hmem2
    · intro c hc
      have : c = ':' := head?_cons_inj hc
      subst this
      decide
  have h6 := tag_append ":".data (blob ++ ("\n".data ++ "250 OK".data))
  have h7 : is_not "\r\n".data (blob ++ ("\n".data ++ "250 OK".data)) =
      .ok ("\n".data ++ "250 OK".data) blob := by
    refine is_not_append _ _ _ hblob ?_ ?_
    · intro c hc hmem
      have hmem2 : c ∈ ['\r', '\n'] := hmem
      have h := hblobch c hc
      simp only [List.mem_cons, List.not_mem_nil, or_false] at hmem2
      rcases hmem2 with ha | hb
      · exact h.1 ha
      · exact h.2 hb
    · intro c hc
      have : c = '\n' := head?_cons_inj hc
      subst this
      decide
  have h8 := line_ending_lf "250 OK".data
  simp only [] at h1 h2 h3 h4 h5 h6 h7 h8
  simp only [add_onion, delimited, pbind, opt, pok, List.append_assoc, h1, h2, h3, h4, h5,
    h6, h7, h8, herr]

/-! ## AUTH METHODS list machinery (for the PROTOCOLINFO grammar) -/

/-- The text after the first token of a comma-separated method list:
a comma before each further token. -/
def commaTail : List Str → Str
  | [] => []
  | m :: ms => ',' :: (m ++ commaTail ms)

/-- A comma-separated method list as it appears on the wire. -/
def joinComma : List Str → Str
  | [] => []
  | m :: ms => m ++ commaTail ms

theorem commaTail_length (ms : List Str) : ms.length ≤ (commaTail ms).length := by
  induction ms with
  | nil => simp [commaTail]
  | cons m ms ih => simp [commaTail]; omega

theorem mem_commaTail {c : Char} {ms : List Str} (h : c ∈ commaTail ms) :
    c = ',' ∨ ∃ m ∈ ms, c ∈ m := by
  induction ms with
  | nil => simp [commaTail] at h
  | cons m ms ih =>
    simp only [commaTail, List.mem_cons, List.mem_append] at h
    rcases h with h | h | h
    · exact Or.inl h
    · exact Or.inr ⟨m, List.mem_cons_self m ms, h⟩
    · rcases ih h with h | ⟨m2, hm2, hc2⟩
      · exact Or.inl h
      · exact Or.inr ⟨m2, List.mem_cons_of_mem m hm2, hc2⟩

theorem sepListAux_commaTail (ms : List Str)
    (hms : ∀ m ∈ ms, m ≠ [] ∧ ∀ c ∈ m, c ≠ ',') :
    ∀ fuel acc, ms.length < fuel →
    sepListAux (tag ",".data) (is_not ",".data) fuel (commaTail ms) acc =
      .ok [] (acc.reverse ++ ms) := by
  induction ms with
  | nil =>
    intro fuel acc hf
    cases fuel with
    | zero => omega
    | succ f => simp [sepListAux, commaTail, tag, List.isPrefixOf]
  | cons m ms ih =>
    intro fuel acc hf
    cases fuel with
    | zero => omega
    | succ f =>
      have hm := hms m (List.mem_cons_self m ms)
      have hsep : tag ",".data (',' :: (m ++ commaTail ms)) =
          .ok (m ++ commaTail ms) ",".data := tag_append ",".data (m ++ commaTail ms)
      have hp : is_not ",".data (m ++ commaTail ms) = .ok (commaTail ms) m := by
        refine is_not_append _ _ _ hm.1 ?_ ?_
        · intro c hc hmem
          have hmem2 : c ∈ [','] := hmem
          simp only [List.mem_cons, List.not_mem_nil, or_false] at hmem2
          exact hm.2 c hc hmem2
        · intro c hc
          cases ms with
          | nil => simp [commaTail] at hc
          | cons m2 ms2 =>
            have : c = ',' := head?_cons_inj hc
            subst this
            decide
      have hrec := ih (fun x hx => hms x (List.mem_cons_of_mem _ hx)) f (m :: acc)
        (by simp at hf ⊢; omega)
      simp only [] at hsep hp
      simp only [commaTail, sepListAux, hsep, hp, List.length_append, List.length_cons]
      rw [if_neg (by omega)]
      rw [hrec]
      simp

theorem separated_list0_joinComma (m : Str) (ms : List Str)
    (hms : ∀ x ∈ m :: ms, x ≠ [] ∧ ∀ c ∈ x, c ≠ ',') :
    separated_list0 (tag ",".data) (is_not ",".data) (joinComma (m :: ms)) =
      .ok [] (m :: ms) := by
  have hm := hms m (List.mem_cons_self m ms)
  have hp : is_not ",".data (m ++ commaTail ms) = .ok (commaTail ms) m := by
    refine is_not_append _ _ _ hm.1 ?_ ?_
    · intro c hc hmem
      have hmem2 : c ∈ [','] := hmem
      simp only [List.mem_cons, List.not_mem_nil, or_false] at hmem2
      exact hm.2 c hc hmem2
    · intro c hc
      cases ms with
      | nil => simp [commaTail] at hc
      | cons m2 ms2 =>
        have : c = ',' := head?_cons_inj hc
        subst this
        decide
  have haux := sepListAux_commaTail ms (fun x hx => hms x (List.mem_cons_of_mem _ hx))
    ((commaTail ms).length + 1) [m] (by have := commaTail_length ms; omega)
  simp only [] at hp
  simp only [joinComma, separated_list0, hp, haux]
  simp

/-- `unwrapAuthMethods` panics (returns `none`) as soon as one token is
unknown. -/
theorem unwrapAuthMethods_none {ms : List Str} {m : Str} (hm : m ∈ ms)
    (hbad : AuthMethod.from_str m = .error Error.unknownAuthMethod) :
    unwrapAuthMethods ms = none := by
  induction ms with
  | nil => simp at hm
  | cons x xs ih =>
    rcases List.mem_cons.1 hm with rfl | hx
    · simp [unwrapAuthMethods, hbad]
    · cases hfs : AuthMethod.from_str x with
      | error e => simp [unwrapAuthMethods, hfs]
      | ok a => simp [unwrapAuthMethods, hfs, ih hx]

theorem comma_separated_values_run (m : Str) (ms : List Str) (rest : Str)
    (hms : ∀ x ∈ m :: ms, x ≠ [] ∧ ∀ c ∈ x, c ≠ ',' ∧ c ≠ ' ' ∧ c ≠ '\r' ∧ c ≠ '\n')
    (hrest : ∀ c, rest.head? = some c → c = ' ' ∨ c = '\r' ∨ c = '\n') :
    comma_separated_values (joinComma (m :: ms) ++ rest) = .ok rest (m :: ms) := by
  have hm := hms m (List.mem_cons_self m ms)
  have houter : is_not " \r\n".data (joinComma (m :: ms) ++ rest) =
      .ok rest (joinComma (m :: ms)) := by
    refine is_not_append _ _ _ ?_ ?_ ?_
    · have h2 : joinComma (m :: ms) = m ++ commaTail ms := rfl
      rw [h2]
      intro h
      exact hm.1 (List.append_eq_nil.1 h).1
    · intro c hc hmem
      have hmem2 : c ∈ [' ', '\r', '\n'] := hmem
      simp only [List.mem_cons, List.not_mem_nil, or_false] at hmem2
      have hc2 : c ∈ m ++ commaTail ms := hc
      rcases List.mem_append.1 hc2 with h | h
      · have hch := hm.2 c h
        rcases hmem2 with h1 | h1 | h1
        · exact hch.2.1 h1
        · exact hch.2.2.1 h1
        · exact hch.2.2.2 h1
      · rcases mem_commaTail h with h | ⟨x, hx, hcx⟩
        · subst h
          rcases hmem2 with h1 | h1 | h1 <;> simp at h1
        · have hch := (hms x (List.mem_cons_of_mem _ hx)).2 c hcx
          rcases hmem2 with h1 | h1 | h1
          · exact hch.2.1 h1
          · exact hch.2.2.1 h1
          · exact hch.2.2.2 h1
    · intro c hc
      rcases hrest c hc with h | h | h <;> subst h <;> decide
  have hsplit := separated_list0_joinComma m ms
    (fun x hx => ⟨(hms x hx).1, fun c hc => ((hms x hx).2 c hc).1⟩)
  simp only [] at houter hsplit
  simp only [comma_separated_values, houter, hsplit]

/-- C2 (amended): a PROTOCOLINFO reply whose AUTH METHODS list contains a
token outside the recognized set makes `protocol_info` panic (the
`unwrap` of `AuthMethod::from_str` at parsers.rs line 63); the token is
never defaulted, but the parser does not return a parse error — it
diverges. -/
theorem protocol_info_unknown_method_panics (m : Str) (ms : List Str)
    (cookie version : Str)
    (hms : ∀ x ∈ m :: ms, x ≠ [] ∧ ∀ c ∈ x, c ≠ ',' ∧ c ≠ ' ' ∧ c ≠ '\r' ∧ c ≠ '\n')
    (hcookie : cookie ≠ []) (hcookiech : ∀ c ∈ cookie, c ≠ '\"')
    (hversion : version ≠ []) (hversionch : ∀ c ∈ version, c ≠ '\"')
    (hbad : ∃ x ∈ m :: ms, AuthMethod.from_str x = .error Error.unknownAuthMethod) :
    protocol_info ("250-PROTOCOLINFO 1".data ++ "\n".data ++ "250-AUTH METHODS=".data ++
      joinComma (m :: ms) ++ " ".data ++ "COOKIEFILE=\"".data ++ cookie ++ "\"".data ++
      "\n".data ++ "250-VERSION Tor=\"".data ++ version ++ "\"".data ++ "\n".data ++
      "250 OK".data) = .panic := by
  have h1 := tag_append "250-PROTOCOLINFO 1".data ("\n".data ++ ("250-AUTH METHODS=".data ++ (joinComma (m :: ms) ++ (" ".data ++ ("COOKIEFILE=\"".data ++ (cookie ++ ("\"".data ++ ("\n".data ++ ("250-VERSION Tor=\"".data ++ (version ++ ("\"".data ++ ("\n".data ++ "250 OK".data))))))))))))
  have h2 := line_ending_lf ("250-AUTH METHODS=".data ++ (joinComma (m :: ms) ++ (" ".data ++ ("COOKIEFILE=\"".data ++ (cookie ++ ("\"".data ++ ("\n".data ++ ("250-VERSION Tor=\"".data ++ (version ++ ("\"".data ++ ("\n".data ++ "250 OK".data)))))))))))
  have h3 := tag_append "250-AUTH METHODS=".data (joinComma (m :: ms) ++ (" ".data ++ ("COOKIEFILE=\"".data ++ (cookie ++ ("\"".data ++ ("\n".data ++ ("250-VERSION Tor=\"".data ++ (version ++ ("\"".data ++ ("\n".data ++ "250 OK".data))))))))))
  have h4 : comma_separated_values (joinComma (m :: ms) ++ (" ".data ++ ("COOKIEFILE=\"".data ++ (cookie ++ ("\"".data ++ ("\n".data ++ ("250-VERSION Tor=\"".data ++ (version ++ ("\"".data ++ ("\n".data ++ "250 OK".data)))))))))) =
      .ok (" ".data ++ ("COOKIEFILE=\"".data ++ (cookie ++ ("\"".data ++ ("\n".data ++ ("250-VERSION Tor=\"".data ++ (version ++ ("\"".data ++ ("\n".data ++ "250 OK".data))))))))) (m :: ms) :=
    comma_separated_values_run m ms _ hms (fun c hc => Or.inl (head?_cons_inj hc))
  have h5 := tag_append " ".data ("COOKIEFILE=\"".data ++ (cookie ++ ("\"".data ++ ("\n".data ++ ("250-VERSION Tor=\"".data ++ (version ++ ("\"".data ++ ("\n".data ++ "250 OK".data))))))))
  have h6 := tag_append "COOKIEFILE=\"".data (cookie ++ ("\"".data ++ ("\n".data ++ ("250-VERSION Tor=\"".data ++ (version ++ ("\"".data ++ ("\n".data ++ "250 OK".data)))))))
  have h7 : is_not "\"".data (cookie ++ ("\"".data ++ ("\n".data ++ ("250-VERSION Tor=\"".data ++ (version ++ ("\"".data ++ ("\n".data ++ "250 OK".data))))))) = .ok ("\"".data ++ ("\n".data ++ ("250-VERSION Tor=\"".data ++ (version ++ ("\"".data ++ ("\n".data ++ "250 OK".data)))))) cookie := by
    refine is_not_append _ _ _ hcookie ?_ ?_
    · intro c hc hmem
      have hmem2 : c ∈ ['"'] := hmem
      simp only [List.mem_cons, List.not_mem_nil, or_false] at hmem2
      exact hcookiech c hc hmem2
    · intro c hc
      have : c = '"' := head?_cons_inj hc
      subst this
      decide
  have h8 := tag_append "\"".data ("\n".data ++ ("250-VERSION Tor=\"".data ++ (version ++ ("\"".data ++ ("\n".data ++ "250 OK".data)))))
  have h9 := line_ending_lf ("250-VERSION Tor=\"".data ++ (version ++ ("\"".data ++ ("\n".data ++ "250 OK".data))))
  have h10 := tag_append "250-VERSION Tor=\"".data (version ++ ("\"".data ++ ("\n".data ++ "250 OK".data)))
  have h11 : is_not "\"".data (version ++ ("\"".data ++ ("\n".data ++ "250 OK".data))) = .ok ("\"".data ++ ("\n".data ++ "250 OK".data)) version := by
    refine is_not_append _ _ _ hversion ?_ ?_
    · intro c hc hmem
      have hmem2 : c ∈ ['"'] := hmem
      simp only [List.mem_cons, List.not_mem_nil, or_false] at hmem2
      exact hversionch c hc hmem2
    · intro c hc
      have : c = '"' := head?_cons_inj hc
      subst this
      decide
  have h12 := tag_append "\"".data ("\n".data ++ "250 OK".data)
  have h13 : is_not "\r\n".data ("\n".data ++ "250 OK".data) = .err := by
    refine is_not_err _ _ ?_
    intro c hc
    have : c = '\n' := head?_cons_inj hc
    subst this
    decide
  have h14 := line_ending_lf ("250 OK".data)
  have h15 : tag "250 OK".data "250 OK".data = .ok [] "250 OK".data := by decide
  obtain ⟨x, hx, hbadx⟩ := hbad
  have hnone := unwrapAuthMethods_none hx hbadx
  simp only [] at h1 h2 h3 h4 h5 h6 h7 h8 h9 h10 h11 h12 h13 h14 h15
  simp only [protocol_info, delimited, pbind, opt, pok, List.append_assoc, h1, h2, h3, h4,
    h5, h6, h7, h8, h9, h10, h11, h12, h13, h14, h15, hnone]

/-! ## GETINFO machinery -/

/-- A GETINFO reply body: one `250-<key>=<value>` line per pair. -/
def encodeInfoPairs : List (Str × Str) → Str
  | [] => []
  | kv :: ps => "250-".data ++ kv.1 ++ "=".data ++ kv.2 ++ "\n".data ++ encodeInfoPairs ps

theorem encodeInfoPairs_length (ps : List (Str × Str)) :
    ps.length ≤ (encodeInfoPairs ps).length := by
  induction ps with
  | nil => simp [encodeInfoPairs]
  | cons kv ps ih =>
    simp only [encodeInfoPairs, List.length_cons, List.length_append]
    omega

theorem get_info_pair_run (k v rest : Str) (hk : k ≠ []) (hkch : ∀ c ∈ k, c ≠ '=')
    (hv : v ≠ []) (hvch : ∀ c ∈ v, c ≠ '\r' ∧ c ≠ '\n') :
    get_info_pair ("250-".data ++ (k ++ ("=".data ++ (v ++ ("\n".data ++ rest))))) =
      .ok rest (k, v) := by
  have h1 := tag_append "250-".data (k ++ ("=".data ++ (v ++ ("\n".data ++ rest))))
  have h2 : is_not "=".data (k ++ ("=".data ++ (v ++ ("\n".data ++ rest)))) =
      .ok ("=".data ++ (v ++ ("\n".data ++ rest))) k := by
    refine is_not_append _ _ _ hk ?_ ?_
    · intro c hc hmem
      have hmem2 : c ∈ ['='] := hmem
      simp only [List.mem_cons, List.not_mem_nil, or_false] at hmem2
      exact hkch c hc hmem2
    · intro c hc
      have : c = '=' := head?_cons_inj hc
      subst this
      decide
  have h3 := tag_append "=".data (v ++ ("\n".data ++ rest))
  have h4 : is_not "\r\n".data (v ++ ("\n".data ++ rest)) = .ok ("\n".data ++ rest) v := by
    refine is_not_append _ _ _ hv ?_ ?_
    · intro c hc hmem
      have hmem2 : c ∈ ['\r', '\n'] := hmem
      have h := hvch c hc
      simp only [List.mem_cons, List.not_mem_nil, or_false] at hmem2
      rcases hmem2 with ha | ha
      · exact h.1 ha
      · exact h.2 ha
    · intro c hc
      have : c = '\n' := head?_cons_inj hc
      subst this
      decide
  have h5 := line_ending_lf rest
  simp only [] at h1 h2 h3 h4 h5
  simp only [get_info_pair, delimited, terminated, pbind, pok, List.append_assoc,
    h1, h2, h3, h4, h5]

theorem many0Aux_encode (ps : List (Str × Str))
    (hwf : ∀ kv ∈ ps, kv.1 ≠ [] ∧ (∀ c ∈ kv.1, c ≠ '=') ∧ kv.2 ≠ [] ∧
      (∀ c ∈ kv.2, c ≠ '\r' ∧ c ≠ '\n'))
    (rest : Str) (hrest : get_info_pair rest = .err) :
    ∀ fuel acc, ps.length < fuel →
    many0Aux get_info_pair fuel (encodeInfoPairs ps ++ rest) acc =
      .ok rest (acc.reverse ++ ps) := by
  induction ps with
  | nil =>
    intro fuel acc hf
    cases fuel with
    | zero => omega
    | succ f => simp [many0Aux, encodeInfoPairs, hrest]
  | cons kv ps ih =>
    intro fuel acc hf
    cases fuel with
    | zero => omega
    | succ f =>
      have hkv := hwf kv (List.mem_cons_self kv ps)
      have hpair := get_info_pair_run kv.1 kv.2 (encodeInfoPairs ps ++ rest)
        hkv.1 hkv.2.1 hkv.2.2.1 hkv.2.2.2
      have hrec := ih (fun x hx => hwf x (List.mem_cons_of_mem _ hx)) f (kv :: acc)
        (by simp at hf ⊢; omega)
      simp only [] at hpair
      simp only [encodeInfoPairs, many0Aux, List.append_assoc, hpair]
      rw [if_neg (by simp [List.length_append]; omega)]
      rw [hrec]
      simp

theorem find?_update_self (mp : List (Str × Str)) (k v : Str)
    (hany : mp.any (fun p => p.1 = k) = true) :
    (mp.map (fun p => if p.1 = k then (k, v) else p)).find? (fun p => p.1 == k) =
      some (k, v) := by
  induction mp with
  | nil => simp at hany
  | cons p mp ih =>
    by_cases hp : p.1 = k
    · simp only [List.map_cons, if_pos hp]
      exact List.find?_cons_of_pos _ (by simp)
    · simp only [List.any_cons, Bool.or_eq_true, decide_eq_true_eq] at hany
      have htail : mp.any (fun p => p.1 = k) = true := by
        rcases hany with h | h
        · exact absurd h hp
        · simpa using h
      simp only [List.map_cons, if_neg hp]
      rw [List.find?_cons_of_neg _ (by simp [hp])]
      exact ih htail

theorem find?_update_other (mp : List (Str × Str)) (k v k2 : Str) (hne : k2 ≠ k) :
    (mp.map (fun p => if p.1 = k then (k, v) else p)).find? (fun p => p.1 == k2) =
      mp.find? (fun p => p.1 == k2) := by
  induction mp with
  | nil => simp
  | cons p mp ih =>
    by_cases hp : p.1 = k
    · simp only [List.map_cons, if_pos hp]
      rw [List.find?_cons_of_neg _ (by simp; exact fun h => hne h.symm),
        List.find?_cons_of_neg _ (by simp [hp]; exact fun h => hne h.symm)]
      exact ih
    · simp only [List.map_cons, if_neg hp]
      by_cases hp2 : p.1 = k2
      · rw [List.find?_cons_of_pos _ (by simp [hp2]), List.find?_cons_of_pos _ (by simp [hp2])]
      · rw [List.find?_cons_of_neg _ (by simp [hp2]), List.find?_cons_of_neg _ (by simp [hp2])]
        exact ih

theorem hmGet_hmInsert_self (mp : List (Str × Str)) (k v : Str) :
    hmGet (hmInsert mp k v) k = some v := by
  by_cases hany : mp.any (fun p => p.1 = k) = true
  · rw [hmInsert, if_pos hany, hmGet, find?_update_self mp k v hany]
    rfl
  · rw [hmInsert, if_neg hany, hmGet, List.find?_append]
    have hnone : mp.find? (fun p => p.1 == k) = none := by
      rw [List.find?_eq_none]
      intro x hx h
      exact hany (List.any_eq_true.2 ⟨x, hx, by simpa using h⟩)
    rw [hnone]
    simp [List.find?]

theorem hmGet_hmInsert_other (mp : List (Str × Str)) (k v k2 : Str) (hne : k2 ≠ k) :
    hmGet (hmInsert mp k v) k2 = hmGet mp k2 := by
  by_cases hany : mp.any (fun p => p.1 = k) = true
  · rw [hmInsert, if_pos hany, hmGet, find?_update_other mp k v k2 hne, hmGet]
  · rw [hmInsert, if_neg hany, hmGet, List.find?_append, hmGet]
    have h1 : List.find? (fun p => p.1 == k2) [(k, v)] = none := by
      simp only [List.find?]
      have : (k == k2) = false := beq_eq_false_iff_ne.2 (fun h => hne h.symm)
      simp [this]
    rw [h1]
    cases mp.find? (fun p => p.1 == k2) <;> rfl

theorem hmGet_foldl (ps : List (Str × Str)) (k : Str) :
    hmGet (ps.foldl (fun mp kv => hmInsert mp kv.1 kv.2) []) k =
      (ps.filterMap (fun kv => if kv.1 = k then some kv.2 else none)).getLast? := by
  induction ps using List.reverseRecOn with
  | nil => rfl
  | append_singleton l kv ih =>
    rw [List.foldl_append, List.filterMap_append]
    simp only [List.foldl_cons, List.foldl_nil, List.filterMap_cons, List.filterMap_nil]
    by_cases hk : kv.1 = k
    · rw [hk, hmGet_hmInsert_self]
      simp [hk, List.getLast?_concat]
    · rw [hmGet_hmInsert_other _ _ _ _ (fun h => hk h.symm), ih]
      simp [hk]

/-- C5 (amended): `get_info` collects the leading `250-<key>=<value>`
lines into the map with last write winning, but it does not require a
final `250 OK` line: with the final line present the line is simply left
as the unconsumed remainder, and without it the buffer still parses
successfully. -/
theorem get_info_characterization (ps : List (Str × Str))
    (hwf : ∀ kv ∈ ps, kv.1 ≠ [] ∧ (∀ c ∈ kv.1, c ≠ '=') ∧ kv.2 ≠ [] ∧
      (∀ c ∈ kv.2, c ≠ '\r' ∧ c ≠ '\n')) :
    get_info (encodeInfoPairs ps ++ "250 OK".data) =
      .ok "250 OK".data (ps.foldl (fun mp kv => hmInsert mp kv.1 kv.2) []) ∧
    get_info (encodeInfoPairs ps) =
      .ok [] (ps.foldl (fun mp kv => hmInsert mp kv.1 kv.2) []) ∧
    ∀ k, hmGet (ps.foldl (fun mp kv => hmInsert mp kv.1 kv.2) []) k =
      (ps.filterMap (fun kv => if kv.1 = k then some kv.2 else none)).getLast? := by
  refine ⟨?_, ?_, fun k => hmGet_foldl ps k⟩
  · have hlen : ps.length < (encodeInfoPairs ps ++ "250 OK".data).length + 1 := by
      have h1 := encodeInfoPairs_length ps
      have h2 := List.length_append (encodeInfoPairs ps) "250 OK".data
      omega
    have hm0 : many0 get_info_pair (encodeInfoPairs ps ++ "250 OK".data) =
        .ok "250 OK".data ps := by
      have h := many0Aux_encode ps hwf "250 OK".data (by decide)
        ((encodeInfoPairs ps ++ "250 OK".data).length + 1) [] hlen
      simpa [many0] using h
    simp only [get_info, pbind, pok, hm0]
  · have hlen : ps.length < (encodeInfoPairs ps).length + 1 := by
      have h1 := encodeInfoPairs_length ps
      omega
    have hm0 : many0 get_info_pair (encodeInfoPairs ps) = .ok [] ps := by
      have h := many0Aux_encode ps hwf [] (by decide)
        ((encodeInfoPairs ps).length + 1) [] hlen
      simpa [many0] using h
    simp only [get_info, pbind, pok, hm0]

/-! ## is_final_line, is_ok, and session-layer theorems -/

theorem utf8Size_of_ascii (c : Char) (h : c.toNat < 128) : c.utf8Size = 1 := by
  unfold Char.utf8Size
  rw [if_pos]
  rw [UInt32.le_def]
  show c.val.toNat ≤ (127 : UInt32).toNat
  exact Nat.le_of_lt_succ (by exact h)

theorem rustStrLen_of_ascii (line : Str) (h : ∀ c ∈ line, c.toNat < 128) :
    rustStrLen line = line.length := by
  induction line with
  | nil => rfl
  | cons c cs ih =>
    have hc := utf8Size_of_ascii c (h c (List.mem_cons_self c cs))
    simp only [rustStrLen, List.map_cons, List.sum_cons, List.length_cons, hc] at ih ⊢
    rw [ih (fun x hx => h x (List.mem_cons_of_mem c hx))]
    omega

/-- C4 (amended): for ASCII lines, `is_final_line` returns true exactly
when the line has at least five characters, its first three characters
are digits, and its fourth character is Rust whitespace.  A space
qualifies, but so do tab and the other whitespace characters — the
source tests `char::is_whitespace`, not equality with a space — so
"fourth character is a space" is too narrow; the hyphen and
shorter-than-five cases of the claim are as stated. -/
theorem is_final_line_characterization (line : Str)
    (hascii : ∀ c ∈ line, c.toNat < 128) :
    is_final_line line = true ↔
      5 ≤ line.length ∧ rustIsNumeric (line.getD 0 ' ') = true ∧
      rustIsNumeric (line.getD 1 ' ') = true ∧ rustIsNumeric (line.getD 2 ' ') = true ∧
      rustIsWhitespace (line.getD 3 ' ') = true := by
  have hlen : rustStrLen line = line.length := rustStrLen_of_ascii line hascii
  rcases line with _ | ⟨c0, line⟩
  · simp [is_final_line, hlen]
  rcases line with _ | ⟨c1, line⟩
  · simp [is_final_line, hlen]
  rcases line with _ | ⟨c2, line⟩
  · simp [is_final_line, hlen]
  rcases line with _ | ⟨c3, line⟩
  · simp [is_final_line, hlen]
  simp only [is_final_line, hlen, List.getD_cons_zero, List.getD_cons_succ,
    List.length_cons]
  by_cases h5 : line.length + 1 + 1 + 1 + 1 < 5
  · rw [if_pos h5]
    have : ¬(5 ≤ line.length + 1 + 1 + 1 + 1) := by omega
    simp [this]
  · rw [if_neg h5]
    have hge : 5 ≤ line.length + 1 + 1 + 1 + 1 := by omega
    cases hb0 : rustIsNumeric c0
    · simp [hb0]
    cases hb1 : rustIsNumeric c1
    · simp [hb1]
    cases hb2 : rustIsNumeric c2
    · simp [hb2]
    simp [hb0, hb1, hb2, hge]

/-- C6 (amended): `is_ok` — used by `send` for the AUTHENTICATE,
DEL_ONION and SIGNAL replies — succeeds exactly on buffers having
`250 OK` as a prefix: trailing text after `250 OK` is left as the
unconsumed remainder and silently discarded by `send`, while a buffer
not starting with `250 OK` (in particular one with unexpected prefix
lines) is a grammar mismatch surfaced as `InternalError`. -/
theorem is_ok_characterization (buffer : Str) :
    send is_ok buffer = (if "250 OK".data.isPrefixOf buffer then some (.ok ())
      else some (.error .internalError)) ∧
    is_ok buffer = (if "250 OK".data.isPrefixOf buffer then .ok (buffer.drop 6) ()
      else .err) := by
  by_cases h : "250 OK".data.isPrefixOf buffer <;>
    simp [send, is_ok, pbind, pok, tag, h]

/-- C8: the encoded authentication command is the literal `AUTHENTICATE `
followed by the double-quoted password in which every double-quote
character is replaced by backslash-quote and every other character is
left unchanged — the quote is the only character escaped. -/
theorem authentication_string_characterization (password : Str) :
    authentication_string password =
      "AUTHENTICATE \"".data ++
        password.flatMap (fun c => if c = '\"' then ['\\', '\"'] else [c]) ++ "\"".data := by
  have h : replaceQuote password =
      password.flatMap (fun c => if c = '\"' then ['\\', '\"'] else [c]) := by
    induction password with
    | nil => rfl
    | cons c cs ih => by_cases hc : c = '\"' <;> simp [replaceQuote, hc, ih]
  rw [authentication_string, h]

/-- C9: when the negotiated auth methods do not contain HashedPassword,
`connect_with_password` fails with `AuthMethodDisabled` and sends no
message at all (in particular no AUTHENTICATE command); when they do
contain it, the AUTHENTICATE command is sent. -/
theorem connect_with_password_gates (pinfo : ProtocolInfo) (password authReply : Str) :
    (AuthMethod.hashedPassword ∉ pinfo.auth_methods →
      connect_with_password pinfo password authReply =
        (some (.error .authMethodDisabled), [])) ∧
    (AuthMethod.hashedPassword ∈ pinfo.auth_methods →
      (connect_with_password pinfo password authReply).2 =
        [authentication_string password]) := by
  constructor <;> intro h <;>
    simp [connect_with_password, List.elem_eq_mem, h, List.contains]

/-- C10: the reply handling of `TorController::add_onion` and
`TorController::add_onion_with_key` unconditionally unwraps the optional
key material of the parsed reply: every reply that parses successfully
but carries no 250-PrivateKey line makes both methods panic instead of
returning an `Err`. -/
theorem add_onion_methods_panic_without_key (reply rest : Str) (sid : ServiceID)
    (h : add_onion reply = .ok rest (sid, none)) :
    TorController.add_onion reply = none ∧
    TorController.add_onion_with_key reply = none := by
  constructor <;>
    simp [TorController.add_onion, TorController.add_onion_with_key, send, h]

/-! ## Witnesses: the hypothesis-bearing theorems applied at concrete inputs -/

/-- C2 witness: the amended theorem instantiated on the method list
`[FOO]`. -/
theorem protocol_info_unknown_method_panics_witness :
    protocol_info ("250-PROTOCOLINFO 1".data ++ "\n".data ++ "250-AUTH METHODS=".data ++
      joinComma ("FOO".data :: []) ++ " ".data ++ "COOKIEFILE=\"".data ++ "/c".data ++
      "\"".data ++ "\n".data ++ "250-VERSION Tor=\"".data ++ "0.1.2.3".data ++ "\"".data ++
      "\n".data ++ "250 OK".data) = .panic :=
  protocol_info_unknown_method_panics "FOO".data [] "/c".data "0.1.2.3".data
    (by decide) (by decide) (by decide) (by decide) (by decide)
    ⟨"FOO".data, by decide, rfl⟩

/-- C3 witness: the amended theorem instantiated on the key-type token
`FOO`. -/
theorem add_onion_unknown_keytype_panics_witness :
    add_onion ("250-ServiceID=".data ++ "abc".data ++ "\n".data ++ "250-PrivateKey=".data ++
      "FOO".data ++ ":".data ++ "blob".data ++ "\n".data ++ "250 OK".data) = .panic :=
  add_onion_unknown_keytype_panics "abc".data "FOO".data "blob".data
    (by decide) (by decide) (by decide) (by decide) (by decide) (by decide) rfl

/-- C4 witness: the characterization instantiated on the final line
`250 OK`. -/
theorem is_final_line_characterization_witness :
    is_final_line "250 OK".data = true ↔
      5 ≤ "250 OK".data.length ∧ rustIsNumeric ("250 OK".data.getD 0 ' ') = true ∧
      rustIsNumeric ("250 OK".data.getD 1 ' ') = true ∧
      rustIsNumeric ("250 OK".data.getD 2 ' ') = true ∧
      rustIsWhitespace ("250 OK".data.getD 3 ' ') = true :=
  is_final_line_characterization "250 OK".data (by decide)

/-- C5 witness: the characterization instantiated on the pair list of the
repository's own GETINFO test vector. -/
theorem get_info_characterization_witness :
    get_info (encodeInfoPairs [("version".data, "0.1.2.3".data)] ++ "250 OK".data) =
      .ok "250 OK".data ([(("version".data : Str), ("0.1.2.3".data : Str))].foldl
        (fun mp kv => hmInsert mp kv.1 kv.2) []) ∧
    get_info (encodeInfoPairs [("version".data, "0.1.2.3".data)]) =
      .ok [] ([(("version".data : Str), ("0.1.2.3".data : Str))].foldl
        (fun mp kv => hmInsert mp kv.1 kv.2) []) ∧
    hmGet ([(("version".data : Str), ("0.1.2.3".data : Str))].foldl
        (fun mp kv => hmInsert mp kv.1 kv.2) []) "version".data =
      ([(("version".data : Str), ("0.1.2.3".data : Str))].filterMap
        (fun kv => if kv.1 = "version".data then some kv.2 else none)).getLast? :=
  ⟨(get_info_characterization [("version".data, "0.1.2.3".data)] (by decide)).1,
   (get_info_characterization [("version".data, "0.1.2.3".data)] (by decide)).2.1,
   (get_info_characterization [("version".data, "0.1.2.3".data)] (by decide)).2.2
     "version".data⟩

/-- C7 witness: the reply-correctness theorem instantiated on the service
id `abc`. -/
theorem add_onion_reply_correct_witness :
    add_onion ("250-ServiceID=".data ++ "abc".data ++ "\n".data ++ "250 OK".data) =
      .ok [] (⟨"abc".data⟩, none) ∧
    add_onion "250-ServiceID=rdwu5tfgmibbgvff\n250-PrivateKey=RSA1024:MIIC\n250 OK".data =
      .ok [] (⟨"rdwu5tfgmibbgvff".data⟩, some (.rsa1024, "MIIC".data)) :=
  add_onion_reply_correct "abc".data (by decide) (by decide)

/-- C9 witness: the gating theorem applied once without and once with
HashedPassword among the negotiated methods. -/
theorem connect_with_password_gates_witness :
    connect_with_password ⟨[.cookie], "1".data⟩ "pw".data "250 OK".data =
      (some (.error .authMethodDisabled), []) ∧
    (connect_with_password ⟨[.hashedPassword], "1".data⟩ "pw".data "250 OK".data).2 =
      [authentication_string "pw".data] :=
  ⟨(connect_with_password_gates ⟨[.cookie], "1".data⟩ "pw".data "250 OK".data).1
      (by decide),
   (connect_with_password_gates ⟨[.hashedPassword], "1".data⟩ "pw".data "250 OK".data).2
      (by decide)⟩

/-- C10 witness: both methods panic on a reply without a PrivateKey
line. -/
theorem add_onion_methods_panic_without_key_witness :
    TorController.add_onion "250-ServiceID=abc\n250 OK".data = none ∧
    TorController.add_onion_with_key "250-ServiceID=abc\n250 OK".data = none :=
  add_onion_methods_panic_without_key "250-ServiceID=abc\n250 OK".data [] ⟨"abc".data⟩
    (by decide)

end Torcc
